import Mathlib

/-!
Shallow embedding of the blog content pipeline:
the read path (fetch all posts / fetch one by slug, with remote-first and
local-fallback resolution) and the upload-conversion write path
(HTML file selection, metadata extraction, draft submission).

External libraries used by the code (the markup renderer, the HTML
sanitizer, the HTML-to-markup converter, the slug transform, and the
date parser behind the sort comparator) are out of scope per the spec and
are modelled as black-box function parameters.  Effectful collaborators
(remote store queries, file loads) are modelled by passing their outcomes
as explicit inputs: a failed or empty remote query is the corresponding
empty outcome, a file load or header parse that throws is an absent value.
-/

namespace BlogPipeline

/-- The canonical Post Record shape (interface BlogPost in the source). -/
structure BlogPost where
  title : String
  date : String
  slug : String
  excerpt : String
  featuredImage : Option String
  content : String
deriving Repr, DecidableEq

/-- A row of the remote store's posts collection, with the wire field
names (flattened naming: featured image and creation time fields). -/
structure RemoteRecord where
  title : String
  date : String
  slug : String
  excerpt : String
  featured_image : Option String
  content : String
  created_at : String
deriving Repr, DecidableEq

/-- The metadata header block of a local document
(interface BlogFrontMatter in the source). -/
structure BlogFrontMatter where
  title : String
  date : String
  slug : String
  excerpt : String
  featuredImage : Option String
deriving Repr, DecidableEq

/-- Field-by-field reshaping of a remote row into a Post Record, as done
by both read operations on their remote branch.  The content field is
returned unchanged: no sanitization happens on this path. -/
def remoteToPost (r : RemoteRecord) : BlogPost :=
  { title := r.title
    date := r.date
    slug := r.slug
    excerpt := r.excerpt
    featuredImage := r.featured_image
    content := r.content }

/-- One iteration of the local-document loop shared by both read
operations: load the raw text (an absent value models a load that threw),
split it into header and body (absence models a parse that threw), and
assemble the record with the body rendered by the markup renderer and then
sanitized.  An absent result means the document is skipped. -/
def processLocalFile (markedParse sanitize : String → String)
    (parseFM : String → Option (BlogFrontMatter × String))
    (file : Option String) : Option BlogPost :=
  match file with
  | none => none
  | some text =>
    match parseFM text with
    | none => none
    | some (attrs, body) =>
      some { title := attrs.title
             date := attrs.date
             slug := attrs.slug
             excerpt := attrs.excerpt
             featuredImage := attrs.featuredImage
             content := sanitize (markedParse body) }

/-- The sort relation realised by the comparator passed to the array sort:
comparing parsed date timestamps so that newer dates come first.
The date parser (the runtime's date-string-to-timestamp conversion) is a
black-box parameter. -/
def dateDescRel (getTime : String → Int) (a b : BlogPost) : Prop :=
  getTime b.date ≤ getTime a.date

instance dateDescRelDecidable (getTime : String → Int) :
    DecidableRel (dateDescRel getTime) :=
  fun a b => Int.decLe (getTime b.date) (getTime a.date)

instance dateDescRelTotal (getTime : String → Int) :
    IsTotal BlogPost (dateDescRel getTime) :=
  ⟨fun a b => (Int.le_total (getTime b.date) (getTime a.date))⟩

instance dateDescRelTrans (getTime : String → Int) :
    IsTrans BlogPost (dateDescRel getTime) :=
  ⟨fun _ _ _ hab hbc => le_trans hbc hab⟩

/-- The sort-by-date step of the local branch.  The runtime's array sort
with the descending-date comparator is modelled as a sort with respect to
that comparator's relation. -/
def sortPostsByDate (getTime : String → Int) (l : List BlogPost) : List BlogPost :=
  l.insertionSort (dateDescRel getTime)

/-- The local-fallback branch of the fetch-all-posts operation: process
every local document, skip the ones that fail, sort by date descending. -/
def localAllPosts (getTime : String → Int) (markedParse sanitize : String → String)
    (parseFM : String → Option (BlogFrontMatter × String))
    (localFiles : List (Option String)) : List BlogPost :=
  sortPostsByDate getTime (localFiles.filterMap (processLocalFile markedParse sanitize parseFM))

/-- The fetch-all-posts operation.  The remote query's outcome is an
input: an absent value models a query error (null data), a present list is
the rows in the store's order (created_at descending).  A present,
non-empty remote result is mapped and returned as-is; otherwise the local
fallback runs. -/
def getAllPosts (getTime : String → Int) (markedParse sanitize : String → String)
    (parseFM : String → Option (BlogFrontMatter × String))
    (remoteResult : Option (List RemoteRecord))
    (localFiles : List (Option String)) : List BlogPost :=
  match remoteResult with
  | some posts =>
    if posts.isEmpty then
      localAllPosts getTime markedParse sanitize parseFM localFiles
    else
      posts.map remoteToPost
  | none => localAllPosts getTime markedParse sanitize parseFM localFiles

/-- The local-fallback loop of the fetch-one-by-slug operation: return the
first successfully parsed document whose header slug equals the requested
slug, skipping documents that fail to load or parse. -/
def findLocalBySlug (markedParse sanitize : String → String)
    (parseFM : String → Option (BlogFrontMatter × String))
    (slug : String) : List (Option String) → Option BlogPost
  | [] => none
  | file :: rest =>
    match processLocalFile markedParse sanitize parseFM file with
    | none => findLocalBySlug markedParse sanitize parseFM slug rest
    | some post =>
      if post.slug = slug then some post
      else findLocalBySlug markedParse sanitize parseFM slug rest

/-- The fetch-one-by-slug operation.  The remote single-row query's
outcome is an input: an absent value models both a query error and a
no-row result (the single-row call errors when no row matches, leaving
null data).  A present row is mapped and returned; otherwise the local
scan runs, and an absent final result is the explicit not-found signal. -/
def getPostBySlug (markedParse sanitize : String → String)
    (parseFM : String → Option (BlogFrontMatter × String))
    (slug : String) (remoteResult : Option RemoteRecord)
    (localFiles : List (Option String)) : Option BlogPost :=
  match remoteResult with
  | some r => some (remoteToPost r)
  | none => findLocalBySlug markedParse sanitize parseFM slug localFiles

/-! ### Upload Conversion: string primitives

A JS string is modelled as its sequence of characters; the string methods
the uploader uses (trim, slice, toLowerCase) are modelled character-wise,
and the two regular expressions are modelled as line-based matchers (the
multiline anchors make both patterns anchored at line starts). -/

/-- The whitespace class of the regular-expression engine, restricted to
the characters that occur in converted text. -/
def wsChar (c : Char) : Bool := c.isWhitespace

/-- Model of trimming whitespace from both ends of a string. -/
def jsTrim (s : String) : String :=
  String.mk ((((s.data.dropWhile wsChar).reverse).dropWhile wsChar).reverse)

/-- Model of the slice-from-zero operation: the first n characters. -/
def jsTake (s : String) (n : Nat) : String :=
  String.mk (s.data.take n)

/-- Model of lowercasing a string character-wise. -/
def jsToLower (s : String) : String :=
  String.mk (s.data.map Char.toLower)

/-- Splitting a character sequence into lines at the newline character:
the line-start positions are exactly where the multiline anchor of the
two patterns can match. -/
def splitLinesChars : List Char → List (List Char)
  | [] => [[]]
  | c :: cs =>
    let rest := splitLinesChars cs
    if c = '\n' then [] :: rest
    else
      match rest with
      | [] => [[c]]
      | l :: ls => (c :: l) :: ls

/-- The lines of the converted text. -/
def jsLines (md : String) : List String :=
  (splitLinesChars md.data).map String.mk

/-- One attempt of the title pattern, given the characters that follow a
marker at a line start.  The greedy whitespace run may cross newlines.
When some text follows the run, the capture is that text up to its line
end (the dot does not cross a newline, and the line-end anchor follows
it).  When the whitespace run reaches the end of the text, the greedy run
backtracks one character at a time until the dot can match, so the
capture is the last whitespace character that is not a newline (a single
character, since every later character is a newline); if every character
of the run is a newline, or nothing follows the marker, the attempt
fails. -/
def titleAttempt (cs : List Char) : Option (List Char) :=
  let w := cs.takeWhile wsChar
  let rest := cs.dropWhile wsChar
  if rest = [] then
    match w.reverse.find? (fun c => c != '\n') with
    | some c => some [c]
    | none => none
  else
    some (rest.takeWhile (fun c => c != '\n'))

/-- Left-to-right scan of the title pattern over the whole text: the
line-start anchor lets an attempt begin at the start of the text or right
after a newline, and the first position whose attempt succeeds wins. -/
def scanTitle : Bool → List Char → Option (List Char)
  | _, [] => none
  | atStart, c :: cs =>
    match (if atStart ∧ c = '#' then titleAttempt cs else none) with
    | some cap => some cap
    | none => scanTitle (c == '\n') cs

/-- The excerpt pattern applied to one line: a nonempty run, anchored at
the line start, of characters other than the marker character.  Returns
the matched run. -/
def excerptLineMatch (l : String) : Option String :=
  let run := l.data.takeWhile (fun c => c != '#')
  if run = [] then none else some (String.mk run)

/-- First capture of the title pattern over the whole converted text:
the leftmost line-start marker whose attempt succeeds; the capture may
lie on a later line than the marker when the whitespace run crosses
newlines. -/
def firstTitleGroup (md : String) : Option String :=
  (scanTitle true md.data).map String.mk

/-- First match of the excerpt pattern over the whole converted text. -/
def firstExcerptMatch (md : String) : Option String :=
  (jsLines md).findSome? excerptLineMatch

/-- The derived title: trimmed first title capture, empty if no match. -/
def extractTitle (md : String) : String :=
  match firstTitleGroup md with
  | some g => jsTrim g
  | none => ""

/-- The derived slug: the slug transform of the lowercased (untrimmed)
title capture, empty if no match.  The slug transform is a black box. -/
def extractSlug (slugify : String → String) (md : String) : String :=
  match firstTitleGroup md with
  | some g => slugify (jsToLower g)
  | none => ""

/-- The derived excerpt: trimmed first excerpt match cut to 200
characters, empty if no match. -/
def extractExcerpt (md : String) : String :=
  match firstExcerptMatch md with
  | some m => jsTake (jsTrim m) 200
  | none => ""

/-! ### Upload Conversion: component state and operations -/

/-- The metadata piece of the uploader's working draft state. -/
structure DraftMetadata where
  title : String
  slug : String
  date : String
  featuredImage : String
  excerpt : String
deriving Repr, DecidableEq

/-- The uploader component's state: selected file name, converted markup
body, draft metadata, current error message, and the in-progress flag. -/
structure UploaderState where
  file : Option String
  markdown : String
  metadata : DraftMetadata
  error : Option String
  isDeploying : Bool
deriving Repr, DecidableEq

/-- The component's initial state.  The date field is initialised to the
current date at the moment the component is created (the date part of the
clock reading at initialisation), and nothing later overwrites it. -/
def initState (mountDate : String) : UploaderState :=
  { file := none
    markdown := ""
    metadata :=
      { title := ""
        slug := ""
        date := mountDate
        featuredImage := ""
        excerpt := "" }
    error := none
    isDeploying := false }

/-- The file-selection operation.  A file whose content type is not the
HTML type and whose lowercased name does not end in the HTML extension is
rejected: an error message is set and nothing else changes.  Otherwise the
file is recorded, the error cleared, the read text converted to markup by
the black-box converter, and title, slug and excerpt re-derived from the
converted text; the date and featured-image fields are carried over
unchanged by the metadata update. -/
def handleFileSelect (slugify turndown : String → String) (s : UploaderState)
    (fileName fileType htmlContent : String) : UploaderState :=
  if fileType ≠ "text/html" ∧ ¬((jsToLower fileName).endsWith ".html") then
    { s with error := some "Please select a valid HTML file" }
  else
    let md := turndown htmlContent
    { s with
      file := some fileName
      error := none
      markdown := md
      metadata :=
        { s.metadata with
          title := extractTitle md
          slug := extractSlug slugify md
          excerpt := extractExcerpt md } }

/-- The row sent to the remote store by the submit operation, with wire
field names. -/
structure Payload where
  slug : String
  title : String
  date : String
  excerpt : String
  featured_image : Option String
  content : String
  created_at : String
deriving Repr, DecidableEq

/-- The record built by the submit operation from the current draft:
slug recomputed from the current title, excerpt falling back to the first
200 characters of the body when the excerpt field is empty, featured image
absent when the field is empty, the body stored as content unchanged, and
the creation timestamp taken from the client clock reading at submission
(the argument now). -/
def buildPayload (slugify : String → String) (m : DraftMetadata)
    (markdown : String) (now : String) : Payload :=
  { slug := slugify (jsToLower m.title)
    title := m.title
    date := m.date
    excerpt := if m.excerpt = "" then jsTake markdown 200 else m.excerpt
    featured_image := if m.featuredImage = "" then none else some m.featuredImage
    content := markdown
    created_at := now }

/-- Outcome of the remote insert call, an external collaborator. -/
inductive InsertOutcome where
  | ok
  | storeError (msg : String)
deriving Repr, DecidableEq

/-- What one run of the submit operation produced: the final component
state, the insert call made (if any), and the navigation performed
(if any). -/
structure DeployResult where
  state : UploaderState
  inserted : Option Payload
  navigatedTo : Option String
deriving Repr, DecidableEq

/-- The submit operation.  It raises the in-progress flag and clears the
error; a draft with an empty title or empty body fails validation, which
is caught at the operation boundary and surfaced as an error message with
no insert attempted; otherwise the payload is built and inserted, a store
error is caught and surfaced the same way, and on success the operation
navigates to the new slug.  The in-progress flag is lowered on every path
(the cleanup clause). -/
def handleDeploy (slugify : String → String) (s : UploaderState) (now : String)
    (outcome : InsertOutcome) : DeployResult :=
  let s1 : UploaderState := { s with isDeploying := true, error := none }
  if s.metadata.title = "" ∨ s.markdown = "" then
    { state := { s1 with error := some "Title and content are required", isDeploying := false }
      inserted := none
      navigatedTo := none }
  else
    let payload := buildPayload slugify s.metadata s.markdown now
    match outcome with
    | .ok =>
      { state := { s1 with isDeploying := false }
        inserted := some payload
        navigatedTo := some ("/blog/" ++ payload.slug) }
    | .storeError msg =>
      { state := { s1 with error := some msg, isDeploying := false }
        inserted := some payload
        navigatedTo := none }

/-- The row the store holds after persisting an inserted payload
(the insert stores the supplied fields verbatim). -/
def rowOfPayload (p : Payload) : RemoteRecord :=
  { title := p.title
    date := p.date
    slug := p.slug
    excerpt := p.excerpt
    featured_image := p.featured_image
    content := p.content
    created_at := p.created_at }

/-! ### Upload Conversion: event-level session model

The runtime is single-threaded and event-driven: user events and
I/O completions are processed one at a time.  A session couples the
component state with the multiset of insert calls currently outstanding
(issued but not yet resolved).  A click on the submit control only runs
the handler when the control is enabled; the handler's synchronous part
(flag raise, validation, payload construction, issuing the insert) runs
before any later event, and the insert's resolution (the handler's
remainder: error surfacing or navigation, then the cleanup clause
lowering the flag) arrives later as its own event. -/

/-- The submit control's disabled condition: empty title, empty body, or
a submission in progress. -/
def deployDisabled (s : UploaderState) : Bool :=
  (s.metadata.title == "") || (s.markdown == "") || s.isDeploying

/-- A session: the component state plus the insert calls outstanding. -/
structure Session where
  ui : UploaderState
  inFlight : List Payload
deriving Repr, DecidableEq

/-- The events a session processes: selecting a file, editing the title
(which also re-derives the slug live), editing the body, clicking the
submit control, and the resolution of an outstanding insert. -/
inductive UploadEvent where
  | selectFile (fileName fileType htmlContent : String)
  | editTitle (t : String)
  | editMarkdown (md : String)
  | clickDeploy (now : String)
  | insertResolves (outcome : InsertOutcome)

/-- One event step of a session.  A click while the control is disabled
is not delivered to the handler.  An enabled click runs the submit
handler's synchronous part: on validation failure the error is surfaced
and the flag lowered with no insert issued; otherwise the payload joins
the outstanding inserts with the flag left raised.  A resolution event
completes one outstanding insert, lowering the flag and, on a store
error, surfacing its message (navigation on success is external to the
session state). -/
def stepEvent (slugify turndown : String → String) (m : Session) :
    UploadEvent → Session
  | .selectFile fileName fileType htmlContent =>
    { m with ui := handleFileSelect slugify turndown m.ui fileName fileType htmlContent }
  | .editTitle t =>
    { m with ui :=
      { m.ui with metadata :=
        { m.ui.metadata with title := t, slug := slugify (jsToLower t) } } }
  | .editMarkdown md =>
    { m with ui := { m.ui with markdown := md } }
  | .clickDeploy now =>
    if deployDisabled m.ui then m
    else
      let s1 : UploaderState := { m.ui with isDeploying := true, error := none }
      if m.ui.metadata.title = "" ∨ m.ui.markdown = "" then
        { ui := { s1 with error := some "Title and content are required", isDeploying := false }
          inFlight := m.inFlight }
      else
        { ui := s1
          inFlight := m.inFlight ++ [buildPayload slugify m.ui.metadata m.ui.markdown now] }
  | .insertResolves outcome =>
    match m.inFlight with
    | [] => m
    | _ :: rest =>
      match outcome with
      | .ok => { ui := { m.ui with isDeploying := false }, inFlight := rest }
      | .storeError msg =>
        { ui := { m.ui with isDeploying := false, error := some msg }, inFlight := rest }

/-- Running a session: fold the event list from the initial state (fresh
component, no outstanding insert). -/
def runSession (slugify turndown : String → String) (mountDate : String)
    (events : List UploadEvent) : Session :=
  events.foldl (stepEvent slugify turndown) { ui := initState mountDate, inFlight := [] }

/-! ### Claim-side and amended metadata-extraction descriptions -/

/-- Following the claim's words: a line is a heading when it starts with
the marker character. -/
def specIsHeading (l : String) : Bool := l.data.head? == some '#'

/-- Following the claim's words: the excerpt is the first line that is
non-empty and not itself a heading, truncated to 200 characters (empty
string if none). -/
def specExcerpt (md : String) : String :=
  match (jsLines md).find? (fun l => !l.data.isEmpty && !specIsHeading l) with
  | some l => jsTake l 200
  | none => ""

/-- The suffixes of the text that begin right after a newline. -/
def newlineTails : List Char → List (List Char)
  | [] => []
  | c :: cs => if c = '\n' then cs :: newlineTails cs else newlineTails cs

/-- The suffixes of the text that begin at a line start (the whole text,
and the suffix after each newline), in position order. -/
def lineStartTails (s : List Char) : List (List Char) :=
  s :: newlineTails s

/-- The title attempt at one line start: it requires the marker character
there and runs the pattern on what follows. -/
def titleMatchAt : List Char → Option (List Char)
  | [] => none
  | c :: cs => if c = '#' then titleAttempt cs else none

/-- Amended description of the title capture: the first line start (in
position order) whose title attempt succeeds, and that attempt's
capture. -/
def amendedTitleCapture (md : String) : Option String :=
  ((lineStartTails md.data).findSome? titleMatchAt).map String.mk

/-- Amended title: the trimmed capture of the first successful attempt,
empty when no line start matches. -/
def amendedTitle (md : String) : String :=
  match amendedTitleCapture md with
  | some g => jsTrim g
  | none => ""

/-- Amended slug: the slug transform of the lowercased, untrimmed capture
of the first successful attempt, empty when no line start matches. -/
def amendedSlug (slugify : String → String) (md : String) : String :=
  match amendedTitleCapture md with
  | some g => slugify (jsToLower g)
  | none => ""

/-- Amended description, excerpt line predicate: the first line that is
non-empty and does not start with the marker character. -/
def excerptLinePred (l : String) : Bool :=
  !l.data.isEmpty && !(l.data.head? == some '#')

/-- Amended description, excerpt text of such a line: its longest run of
characters, from the line start, not containing the marker character. -/
def amendedExcerptText (l : String) : String :=
  String.mk (l.data.takeWhile (fun c => c != '#'))

/-- Amended excerpt: that run of the first such line, trimmed and
truncated to 200 characters. -/
def amendedExcerpt (md : String) : String :=
  match (jsLines md).find? excerptLinePred with
  | some l => jsTake (jsTrim (amendedExcerptText l)) 200
  | none => ""

/-- The created-at ordering the remote store delivers rows in. -/
def createdDescRel (getTime : String → Int) (a b : RemoteRecord) : Prop :=
  getTime b.created_at ≤ getTime a.created_at

instance createdDescRelDecidable (getTime : String → Int) :
    DecidableRel (createdDescRel getTime) :=
  fun a b => Int.decLe (getTime b.created_at) (getTime a.created_at)

/-! ### Concrete fixtures for witnesses and counterexamples -/

/-- A concrete date parser: timestamps for the strings the fixtures use.
The two created-at stamps (CA newer than CB) order opposite to the two
dates. -/
def fixtureGetTime : String → Int := fun t =>
  if t = "CA" then 4
  else if t = "CB" then 3
  else if t = "2024-01-01" then 2
  else if t = "2020-01-01" then 1
  else 0

/-- A store row created recently (created-at CA) about an old date. -/
def backfillRow : RemoteRecord :=
  { title := "Backfilled older post"
    date := "2020-01-01"
    slug := "old"
    excerpt := ""
    featured_image := none
    content := ""
    created_at := "CA" }

/-- A store row created earlier (created-at CB) about a recent date. -/
def freshRow : RemoteRecord :=
  { title := "Newer post"
    date := "2024-01-01"
    slug := "new"
    excerpt := ""
    featured_image := none
    content := ""
    created_at := "CB" }

/-- A store row whose title is empty. -/
def emptyTitleRow : RemoteRecord :=
  { title := ""
    date := "2024-01-01"
    slug := "s"
    excerpt := "e"
    featured_image := none
    content := "c"
    created_at := "t" }

/-- A draft whose body is an active-content payload, exactly as a user
can produce by editing the body field before submitting. -/
def scriptDraft : UploaderState :=
  { file := some "evil.html"
    markdown := "<script>alert(1)</script>"
    metadata :=
      { title := "Evil"
        slug := "evil"
        date := "2024-06-01"
        featuredImage := ""
        excerpt := "x" }
    error := none
    isDeploying := false }

/-- A well-formed local document header. -/
def sampleHeader : BlogFrontMatter :=
  { title := "Sample"
    date := "2024-01-01"
    slug := "sample"
    excerpt := "short"
    featuredImage := none }

/-- Session invariant: when the in-progress flag is down no insert is
outstanding, and at most one insert is ever outstanding. -/
def SessionInv (m : Session) : Prop :=
  (m.ui.isDeploying = false → m.inFlight = []) ∧ m.inFlight.length ≤ 1

/-! ### Helper lemmas -/

theorem handleFileSelect_isDeploying (slugify turndown : String → String)
    (s : UploaderState) (a b c : String) :
    (handleFileSelect slugify turndown s a b c).isDeploying = s.isDeploying := by
  unfold handleFileSelect
  split <;> rfl

theorem stepEvent_inv (slugify turndown : String → String) (m : Session)
    (e : UploadEvent) (h : SessionInv m) :
    SessionInv (stepEvent slugify turndown m e) := by
  obtain ⟨h1, h2⟩ := h
  cases e with
  | selectFile a b c =>
    refine ⟨fun hd => h1 ?_, h2⟩
    rwa [show (stepEvent slugify turndown m (.selectFile a b c)).ui
        = handleFileSelect slugify turndown m.ui a b c from rfl,
      handleFileSelect_isDeploying] at hd
  | editTitle t => exact ⟨fun hd => h1 hd, h2⟩
  | editMarkdown md => exact ⟨fun hd => h1 hd, h2⟩
  | clickDeploy now =>
    simp only [stepEvent]
    by_cases hd : deployDisabled m.ui = true
    · rw [if_pos hd]; exact ⟨h1, h2⟩
    · have hparts : (m.ui.metadata.title == "") = false ∧
          (m.ui.markdown == "") = false ∧ m.ui.isDeploying = false := by
        revert hd
        unfold deployDisabled
        cases m.ui.metadata.title == "" <;> cases m.ui.markdown == "" <;>
          cases m.ui.isDeploying <;> simp
      obtain ⟨ht, hm, hflag⟩ := hparts
      have hval : ¬(m.ui.metadata.title = "" ∨ m.ui.markdown = "") := by
        rintro (hx | hx)
        · exact ne_of_beq_false ht hx
        · exact ne_of_beq_false hm hx
      rw [if_neg hd, if_neg hval]
      refine ⟨fun hx => ?_, ?_⟩
      · simp at hx
      · simp [h1 hflag]
  | insertResolves outcome =>
    simp only [stepEvent]
    cases hfl : m.inFlight with
    | nil => exact ⟨fun _ => hfl, h2⟩
    | cons p rest =>
      have hrest : rest = [] := by
        rw [hfl] at h2
        simpa using List.eq_nil_of_length_eq_zero (Nat.le_zero.mp (Nat.lt_succ_iff.mp h2))
      cases outcome with
      | ok => exact ⟨fun _ => hrest, by simp [hrest]⟩
      | storeError msg => exact ⟨fun _ => hrest, by simp [hrest]⟩

theorem foldl_stepEvent_inv (slugify turndown : String → String) :
    ∀ (events : List UploadEvent) (m : Session), SessionInv m →
      SessionInv (events.foldl (stepEvent slugify turndown) m)
  | [], _, h => h
  | e :: es, m, h =>
    foldl_stepEvent_inv slugify turndown es _ (stepEvent_inv slugify turndown m e h)

theorem runSession_inv (slugify turndown : String → String) (mountDate : String)
    (events : List UploadEvent) :
    SessionInv (runSession slugify turndown mountDate events) :=
  foldl_stepEvent_inv slugify turndown events _ ⟨fun _ => rfl, by simp⟩

/-! ### Claim theorems -/

/-- C10: at most one submission is in flight at a time per draft.  In
every session (any event sequence from a fresh uploader), the outstanding
insert calls never number more than one, and while one is outstanding the
submit control is disabled, so a second click in quick succession cannot
start a second concurrent insert. -/
theorem c10_single_submission_in_flight (slugify turndown : String → String)
    (mountDate : String) (events : List UploadEvent) :
    (runSession slugify turndown mountDate events).inFlight.length ≤ 1 ∧
      ((runSession slugify turndown mountDate events).inFlight ≠ [] →
        deployDisabled (runSession slugify turndown mountDate events).ui = true) := by
  obtain ⟨h1, h2⟩ := runSession_inv slugify turndown mountDate events
  refine ⟨h2, fun hne => ?_⟩
  have hflag : (runSession slugify turndown mountDate events).ui.isDeploying = true := by
    cases hfl : (runSession slugify turndown mountDate events).ui.isDeploying with
    | false => exact absurd (h1 hfl) hne
    | true => rfl
  unfold deployDisabled
  rw [hflag]
  simp

theorem getAllPosts_fallback (gt : String → Int) (mp sz : String → String)
    (pf : String → Option (BlogFrontMatter × String)) (files : List (Option String))
    (remote : Option (List RemoteRecord)) (h : remote = none ∨ remote = some []) :
    getAllPosts gt mp sz pf remote files = localAllPosts gt mp sz pf files := by
  rcases h with h | h <;> subst h <;> rfl

theorem localAllPosts_perm (gt : String → Int) (mp sz : String → String)
    (pf : String → Option (BlogFrontMatter × String)) (files : List (Option String)) :
    (localAllPosts gt mp sz pf files).Perm (files.filterMap (processLocalFile mp sz pf)) :=
  List.perm_insertionSort _ _

theorem localAllPosts_sorted (gt : String → Int) (mp sz : String → String)
    (pf : String → Option (BlogFrontMatter × String)) (files : List (Option String)) :
    List.Sorted (dateDescRel gt) (localAllPosts gt mp sz pf files) :=
  List.sorted_insertionSort _ _

theorem mem_localAllPosts (gt : String → Int) (mp sz : String → String)
    (pf : String → Option (BlogFrontMatter × String)) (files : List (Option String))
    (p : BlogPost) :
    p ∈ localAllPosts gt mp sz pf files ↔
      p ∈ files.filterMap (processLocalFile mp sz pf) :=
  (localAllPosts_perm gt mp sz pf files).mem_iff

theorem processLocalFile_eq_some (mp sz : String → String)
    (pf : String → Option (BlogFrontMatter × String)) (f : Option String) (p : BlogPost)
    (h : processLocalFile mp sz pf f = some p) :
    ∃ text attrs body, f = some text ∧ pf text = some (attrs, body) ∧
      p = { title := attrs.title, date := attrs.date, slug := attrs.slug,
            excerpt := attrs.excerpt, featuredImage := attrs.featuredImage,
            content := sz (mp body) } := by
  cases f with
  | none => simp [processLocalFile] at h
  | some text =>
    cases hpf : pf text with
    | none => simp [processLocalFile, hpf] at h
    | some ab =>
      obtain ⟨attrs, body⟩ := ab
      simp only [processLocalFile, hpf, Option.some.injEq] at h
      exact ⟨text, attrs, body, rfl, hpf, h.symm⟩

theorem findLocalBySlug_eq_none (mp sz : String → String)
    (pf : String → Option (BlogFrontMatter × String)) (slug : String) :
    ∀ files : List (Option String),
      (∀ f ∈ files, ∀ p, processLocalFile mp sz pf f = some p → p.slug ≠ slug) →
      findLocalBySlug mp sz pf slug files = none
  | [], _ => rfl
  | f :: fs, h => by
    have hrec := findLocalBySlug_eq_none mp sz pf slug fs
      (fun g hg => h g (List.mem_cons_of_mem _ hg))
    cases hp : processLocalFile mp sz pf f with
    | none => simp [findLocalBySlug, hp, hrec]
    | some p => simp [findLocalBySlug, hp, hrec, h f (List.mem_cons_self f fs) p hp]

theorem findLocalBySlug_eq_some (mp sz : String → String)
    (pf : String → Option (BlogFrontMatter × String)) (slug : String) :
    ∀ (files : List (Option String)) (p : BlogPost),
      findLocalBySlug mp sz pf slug files = some p →
      ∃ f ∈ files, processLocalFile mp sz pf f = some p
  | [], p, h => by simp [findLocalBySlug] at h
  | f :: fs, p, h => by
    cases hp : processLocalFile mp sz pf f with
    | none =>
      simp only [findLocalBySlug, hp] at h
      obtain ⟨g, hg, hgp⟩ := findLocalBySlug_eq_some mp sz pf slug fs p h
      exact ⟨g, List.mem_cons_of_mem _ hg, hgp⟩
    | some q =>
      simp only [findLocalBySlug, hp] at h
      by_cases hq : q.slug = slug
      · rw [if_pos hq] at h
        obtain rfl := Option.some.inj h
        exact ⟨f, List.mem_cons_self f fs, hp⟩
      · rw [if_neg hq] at h
        obtain ⟨g, hg, hgp⟩ := findLocalBySlug_eq_some mp sz pf slug fs p h
        exact ⟨g, List.mem_cons_of_mem _ hg, hgp⟩

/-- C1 (code bug): the submit operation inserts the draft body verbatim
as the record's content — the renderer and sanitizer are never applied on
the write path — and the remote branch of the read path returns that
content unchanged, so a consumer receives the raw active-content body.
Evaluated at the failing input: a draft whose body is a script element. -/
theorem c1_write_path_stores_unsanitized_body :
    (handleDeploy (fun s => s) scriptDraft "2024-06-01T00:00:00Z" .ok).inserted.map
        Payload.content = some "<script>alert(1)</script>" ∧
    (getAllPosts (fun _ => 0) (fun s => s) (fun s => s) (fun _ => none)
        (some [rowOfPayload
          (buildPayload (fun s => s) scriptDraft.metadata scriptDraft.markdown
            "2024-06-01T00:00:00Z")]) []).map BlogPost.content =
      ["<script>alert(1)</script>"] := by
  decide

/-- C2 counterexample: a remote result that is in the store's order
(created-at descending) whose mapped records are not sorted by date
descending; fetch-all-posts returns it as-is, so the claim's ordering
invariant fails on the remote branch. -/
theorem c2_counterexample_remote_order_not_date_sorted :
    List.Pairwise (createdDescRel fixtureGetTime) [backfillRow, freshRow] ∧
    ¬ List.Sorted (dateDescRel fixtureGetTime)
        (getAllPosts fixtureGetTime (fun s => s) (fun s => s) (fun _ => none)
          (some [backfillRow, freshRow]) []) := by
  decide

/-- C2 amended: the ordering invariant holds on the local branch — when
the remote query fails or returns no rows, the fetch-all-posts result is
sorted by date descending; the remote branch returns the store's
created-at-descending order unchanged, which need not be date order. -/
theorem c2_amended_local_branch_sorted (gt : String → Int) (mp sz : String → String)
    (pf : String → Option (BlogFrontMatter × String)) (files : List (Option String))
    (remote : Option (List RemoteRecord)) (h : remote = none ∨ remote = some []) :
    List.Sorted (dateDescRel gt) (getAllPosts gt mp sz pf remote files) := by
  rw [getAllPosts_fallback gt mp sz pf files remote h]
  exact localAllPosts_sorted gt mp sz pf files

theorem c2_amended_local_branch_sorted_witness :
    List.Sorted (dateDescRel fixtureGetTime)
      (getAllPosts fixtureGetTime (fun s => s) (fun s => s)
        (fun t => some (sampleHeader, t)) none [some "b1", some "b2"]) :=
  c2_amended_local_branch_sorted fixtureGetTime (fun s => s) (fun s => s)
    (fun t => some (sampleHeader, t)) [some "b1", some "b2"] none (Or.inl rfl)

/-- C3: neither read operation raises.  Both are total functions into
plain values; when the remote query fails (or returns nothing) and every
local document fails to load or parse, fetch-all-posts returns the empty
list, and when no record matches anywhere, fetch-one-by-slug returns the
explicit not-found value, which its codomain keeps distinct from any
error. -/
theorem c3_never_raises (gt : String → Int) (mp sz : String → String)
    (pf : String → Option (BlogFrontMatter × String))
    (remote : Option (List RemoteRecord)) (files : List (Option String))
    (slug : String) :
    ((remote = none ∨ remote = some []) →
      (∀ f ∈ files, processLocalFile mp sz pf f = none) →
      getAllPosts gt mp sz pf remote files = []) ∧
    ((∀ f ∈ files, ∀ p, processLocalFile mp sz pf f = some p → p.slug ≠ slug) →
      getPostBySlug mp sz pf slug none files = none) := by
  constructor
  · intro hrem hfail
    rw [getAllPosts_fallback gt mp sz pf files remote hrem]
    unfold localAllPosts sortPostsByDate
    rw [List.filterMap_eq_nil_iff.mpr hfail]
    rfl
  · intro hmiss
    exact findLocalBySlug_eq_none mp sz pf slug files hmiss

theorem c3_never_raises_witness :
    getAllPosts (fun _ => 0) (fun s => s) (fun s => s) (fun _ => none) none
        [none, some "broken"] = [] ∧
    getPostBySlug (fun s => s) (fun s => s) (fun _ => none) "missing" none
        [none, some "broken"] = none :=
  ⟨(c3_never_raises (fun _ => 0) (fun s => s) (fun s => s) (fun _ => none) none
      [none, some "broken"] "missing").1 (Or.inl rfl) (by decide),
   (c3_never_raises (fun _ => 0) (fun s => s) (fun s => s) (fun _ => none) none
      [none, some "broken"] "missing").2
    (by intro f hf p hp; cases f <;> simp [processLocalFile] at hp)⟩

/-- C4 counterexample: the read path performs no emptiness validation: a
remote row with an empty title is delivered to the consumer unchanged, so
the returned list violates the non-empty-title invariant. -/
theorem c4_counterexample_empty_title_delivered :
    ¬ (∀ p ∈ getAllPosts (fun _ => 0) (fun s => s) (fun s => s) (fun _ => none)
          (some [emptyTitleRow]) [],
        p.title ≠ "" ∧ p.date ≠ "" ∧ p.slug ≠ "") := by
  decide

/-- C4 amended: returned records carry their source's fields verbatim —
whenever every remote row and every parsed local header has non-empty
title, date, and slug, so does every record either read operation
returns; and on the local branch every returned content is the sanitizer
applied to the rendered body.  No emptiness check (and, on the remote
branch, no sanitization) is performed at read time itself. -/
theorem c4_amended_field_preservation (gt : String → Int) (mp sz : String → String)
    (pf : String → Option (BlogFrontMatter × String))
    (remote : Option (List RemoteRecord)) (remoteOne : Option RemoteRecord)
    (files : List (Option String)) (slug : String)
    (hremote : ∀ rs, remote = some rs → ∀ r ∈ rs, r.title ≠ "" ∧ r.date ≠ "" ∧ r.slug ≠ "")
    (hone : ∀ r, remoteOne = some r → r.title ≠ "" ∧ r.date ≠ "" ∧ r.slug ≠ "")
    (hlocal : ∀ text attrs body, pf text = some (attrs, body) →
      attrs.title ≠ "" ∧ attrs.date ≠ "" ∧ attrs.slug ≠ "") :
    (∀ p ∈ getAllPosts gt mp sz pf remote files,
      p.title ≠ "" ∧ p.date ≠ "" ∧ p.slug ≠ "") ∧
    (∀ p, getPostBySlug mp sz pf slug remoteOne files = some p →
      p.title ≠ "" ∧ p.date ≠ "" ∧ p.slug ≠ "") ∧
    ((remote = none ∨ remote = some []) →
      ∀ p ∈ getAllPosts gt mp sz pf remote files, ∃ body, p.content = sz (mp body)) := by
  have hlocalPost : ∀ f p, processLocalFile mp sz pf f = some p →
      p.title ≠ "" ∧ p.date ≠ "" ∧ p.slug ≠ "" := by
    intro f p hp
    obtain ⟨text, attrs, body, -, hpf, rfl⟩ := processLocalFile_eq_some mp sz pf f p hp
    exact hlocal text attrs body hpf
  refine ⟨?_, ?_, ?_⟩
  · intro p hp
    match remote with
    | none =>
      rw [getAllPosts_fallback gt mp sz pf files none (Or.inl rfl),
        mem_localAllPosts] at hp
      obtain ⟨f, hf, hfp⟩ := List.mem_filterMap.mp hp
      exact hlocalPost f p hfp
    | some [] =>
      rw [getAllPosts_fallback gt mp sz pf files (some []) (Or.inr rfl),
        mem_localAllPosts] at hp
      obtain ⟨f, hf, hfp⟩ := List.mem_filterMap.mp hp
      exact hlocalPost f p hfp
    | some (r :: rs) =>
      obtain ⟨r', hr', rfl⟩ := List.mem_map.mp hp
      exact hremote (r :: rs) rfl r' hr'
  · intro p hp
    match remoteOne with
    | some r =>
      obtain rfl : remoteToPost r = p := Option.some.inj hp
      exact hone r rfl
    | none =>
      obtain ⟨f, hf, hfp⟩ := findLocalBySlug_eq_some mp sz pf slug files p hp
      exact hlocalPost f p hfp
  · intro hrem p hp
    rw [getAllPosts_fallback gt mp sz pf files remote hrem, mem_localAllPosts] at hp
    obtain ⟨f, hf, hfp⟩ := List.mem_filterMap.mp hp
    obtain ⟨text, attrs, body, -, hpf, rfl⟩ := processLocalFile_eq_some mp sz pf f p hfp
    exact ⟨body, rfl⟩

theorem c4_amended_field_preservation_witness :
    (∀ p ∈ getAllPosts (fun _ => 0) (fun s => s) (fun s => s)
        (fun t => some (sampleHeader, t)) none [some "doc"],
      p.title ≠ "" ∧ p.date ≠ "" ∧ p.slug ≠ "") ∧
    (∀ p, getPostBySlug (fun s => s) (fun s => s)
        (fun t => some (sampleHeader, t)) "sample" none [some "doc"] = some p →
      p.title ≠ "" ∧ p.date ≠ "" ∧ p.slug ≠ "") ∧
    (((none : Option (List RemoteRecord)) = none ∨
        (none : Option (List RemoteRecord)) = some []) →
      ∀ p ∈ getAllPosts (fun _ => 0) (fun s => s) (fun s => s)
        (fun t => some (sampleHeader, t)) none [some "doc"],
        ∃ body, p.content = (fun s => s) ((fun s => s) body)) :=
  c4_amended_field_preservation (fun _ => 0) (fun s => s) (fun s => s)
    (fun t => some (sampleHeader, t)) none none [some "doc"] "sample"
    (by intro rs hrs; cases hrs)
    (by intro r hr; cases hr)
    (by
      intro text attrs body hpf
      obtain ⟨rfl, -⟩ := Prod.mk.inj (Option.some.inj hpf)
      decide)

/-- C5: on the local fallback path the result is exactly one record per
well-formed document (a permutation of the per-document records, so
documents that fail to parse are skipped without failing the operation),
and each well-formed document's header and body yield a member record
whose content is the sanitizer applied to the pure render of the body. -/
theorem c5_local_render_sanitize (gt : String → Int) (mp sz : String → String)
    (pf : String → Option (BlogFrontMatter × String)) (files : List (Option String))
    (remote : Option (List RemoteRecord)) (h : remote = none ∨ remote = some []) :
    (getAllPosts gt mp sz pf remote files).Perm
      (files.filterMap (processLocalFile mp sz pf)) ∧
    (∀ f ∈ files, ∀ p, processLocalFile mp sz pf f = some p →
      p ∈ getAllPosts gt mp sz pf remote files) ∧
    (∀ text attrs body, some text ∈ files → pf text = some (attrs, body) →
      ({ title := attrs.title, date := attrs.date, slug := attrs.slug,
         excerpt := attrs.excerpt, featuredImage := attrs.featuredImage,
         content := sz (mp body) } : BlogPost) ∈ getAllPosts gt mp sz pf remote files) := by
  rw [getAllPosts_fallback gt mp sz pf files remote h]
  refine ⟨localAllPosts_perm gt mp sz pf files, fun f hf p hp => ?_,
    fun text attrs body hmem hpf => ?_⟩
  · exact (mem_localAllPosts gt mp sz pf files p).mpr
      (List.mem_filterMap.mpr ⟨f, hf, hp⟩)
  · exact (mem_localAllPosts gt mp sz pf files _).mpr
      (List.mem_filterMap.mpr ⟨some text, hmem, by simp [processLocalFile, hpf]⟩)

theorem c5_local_render_sanitize_witness :
    (getAllPosts fixtureGetTime (fun s => String.append "<p>" s) (fun s => s)
        (fun t => if t = "good" then some (sampleHeader, "body") else none) none
        [some "good", some "bad", none]).Perm
      ([some "good", some "bad", none].filterMap
        (processLocalFile (fun s => String.append "<p>" s) (fun s => s)
          (fun t => if t = "good" then some (sampleHeader, "body") else none))) ∧
    (∀ f ∈ [some "good", some "bad", none], ∀ p,
      processLocalFile (fun s => String.append "<p>" s) (fun s => s)
        (fun t => if t = "good" then some (sampleHeader, "body") else none) f = some p →
      p ∈ getAllPosts fixtureGetTime (fun s => String.append "<p>" s) (fun s => s)
        (fun t => if t = "good" then some (sampleHeader, "body") else none) none
        [some "good", some "bad", none]) ∧
    (∀ text attrs body,
      some text ∈ [some "good", some "bad", none] →
      (if text = "good" then some (sampleHeader, "body") else none) = some (attrs, body) →
      ({ title := attrs.title, date := attrs.date, slug := attrs.slug,
         excerpt := attrs.excerpt, featuredImage := attrs.featuredImage,
         content := (fun s => s) ((fun s => String.append "<p>" s) body) } : BlogPost) ∈
        getAllPosts fixtureGetTime (fun s => String.append "<p>" s) (fun s => s)
          (fun t => if t = "good" then some (sampleHeader, "body") else none) none
          [some "good", some "bad", none]) :=
  c5_local_render_sanitize fixtureGetTime (fun s => String.append "<p>" s) (fun s => s)
    (fun t => if t = "good" then some (sampleHeader, "body") else none)
    [some "good", some "bad", none] none (Or.inl rfl)

/-- C7: submitting a draft with an empty title or empty body fails with
the missing-required-field condition surfaced in the error state (the
thrown validation error is caught at the operation boundary, not fatal),
no insert call is made, no navigation happens, and the draft state
(metadata and body) is left unchanged. -/
theorem c7_validation_blocks_insert (slugify : String → String) (s : UploaderState)
    (now : String) (outcome : InsertOutcome)
    (h : s.metadata.title = "" ∨ s.markdown = "") :
    (handleDeploy slugify s now outcome).inserted = none ∧
    (handleDeploy slugify s now outcome).navigatedTo = none ∧
    (handleDeploy slugify s now outcome).state.error =
      some "Title and content are required" ∧
    (handleDeploy slugify s now outcome).state.metadata = s.metadata ∧
    (handleDeploy slugify s now outcome).state.markdown = s.markdown ∧
    (handleDeploy slugify s now outcome).state.file = s.file ∧
    (handleDeploy slugify s now outcome).state.isDeploying = false := by
  simp [handleDeploy, if_pos h]

theorem c7_validation_blocks_insert_witness :
    (handleDeploy (fun s => s) (initState "2024-01-01") "T" .ok).inserted = none ∧
    (handleDeploy (fun s => s) (initState "2024-01-01") "T" .ok).navigatedTo = none ∧
    (handleDeploy (fun s => s) (initState "2024-01-01") "T" .ok).state.error =
      some "Title and content are required" ∧
    (handleDeploy (fun s => s) (initState "2024-01-01") "T" .ok).state.metadata =
      (initState "2024-01-01").metadata ∧
    (handleDeploy (fun s => s) (initState "2024-01-01") "T" .ok).state.markdown =
      (initState "2024-01-01").markdown ∧
    (handleDeploy (fun s => s) (initState "2024-01-01") "T" .ok).state.file =
      (initState "2024-01-01").file ∧
    (handleDeploy (fun s => s) (initState "2024-01-01") "T" .ok).state.isDeploying = false :=
  c7_validation_blocks_insert (fun s => s) (initState "2024-01-01") "T" .ok (Or.inl rfl)

/-- C8 counterexample: the inserted record's creation timestamp is
assigned from the client clock at submission, not by the server — the
same draft submitted at two different client clock readings yields two
records carrying those two readings. -/
theorem c8_counterexample_client_timestamp :
    (handleDeploy (fun s => s) scriptDraft "2024-06-01T00:00:00Z" .ok).inserted.map
        Payload.created_at = some "2024-06-01T00:00:00Z" ∧
    (handleDeploy (fun s => s) scriptDraft "2024-06-02T09:30:00Z" .ok).inserted.map
        Payload.created_at = some "2024-06-02T09:30:00Z" ∧
    (handleDeploy (fun s => s) scriptDraft "2024-06-01T00:00:00Z" .ok).inserted.map
        Payload.created_at ≠
      (handleDeploy (fun s => s) scriptDraft "2024-06-02T09:30:00Z" .ok).inserted.map
        Payload.created_at := by
  decide

/-- C8 amended: for every valid submission the inserted record has slug
recomputed from the lowercased current title, the excerpt defaulting to
the first 200 characters of the body when the excerpt field is empty, the
featured image absent when the field is empty, the body as content, and a
creation timestamp taken from the client clock at submission time. -/
theorem c8_amended_payload_fields (slugify : String → String) (s : UploaderState)
    (now : String) (outcome : InsertOutcome)
    (h : ¬(s.metadata.title = "" ∨ s.markdown = "")) :
    ∃ p, (handleDeploy slugify s now outcome).inserted = some p ∧
      p.slug = slugify (jsToLower s.metadata.title) ∧
      p.title = s.metadata.title ∧
      p.date = s.metadata.date ∧
      p.excerpt =
        (if s.metadata.excerpt = "" then jsTake s.markdown 200 else s.metadata.excerpt) ∧
      p.featured_image =
        (if s.metadata.featuredImage = "" then none else some s.metadata.featuredImage) ∧
      p.content = s.markdown ∧
      p.created_at = now := by
  refine ⟨buildPayload slugify s.metadata s.markdown now, ?_, rfl, rfl, rfl, rfl, rfl, rfl, rfl⟩
  simp only [handleDeploy, if_neg h]
  cases outcome <;> rfl

theorem c8_amended_payload_fields_witness :
    ∃ p, (handleDeploy (fun s => s) scriptDraft "TS" .ok).inserted = some p ∧
      p.slug = (fun s => s) (jsToLower scriptDraft.metadata.title) ∧
      p.title = scriptDraft.metadata.title ∧
      p.date = scriptDraft.metadata.date ∧
      p.excerpt =
        (if scriptDraft.metadata.excerpt = "" then jsTake scriptDraft.markdown 200
         else scriptDraft.metadata.excerpt) ∧
      p.featured_image =
        (if scriptDraft.metadata.featuredImage = "" then none
         else some scriptDraft.metadata.featuredImage) ∧
      p.content = scriptDraft.markdown ∧
      p.created_at = "TS" :=
  c8_amended_payload_fields (fun s => s) scriptDraft "TS" .ok (by decide)

/-- C9 counterexample: the date field is not set at file-selection time.
A component mounted when the current date was 2024-01-01 still carries
that date after a file is accepted — even when the selection happens on a
later day (the selection operation takes no clock reading at all), so the
draft date is the mount date, not the selection-moment date the claim
requires (2024-06-01 in this scenario). -/
theorem c9_counterexample_date_not_refreshed :
    (handleFileSelect (fun s => s) (fun _ => "# Hi\nBody") (initState "2024-01-01")
        "post.html" "text/html" "<h1>Hi</h1>").metadata.date = "2024-01-01" ∧
    (handleFileSelect (fun s => s) (fun _ => "# Hi\nBody") (initState "2024-01-01")
        "post.html" "text/html" "<h1>Hi</h1>").metadata.date ≠ "2024-06-01" := by
  decide

/-- C9 amended: accepting an HTML file updates the draft's title, slug,
excerpt and markup body (re-derived from the converted text), records the
file and clears the error, but leaves the date and featured-image fields
unchanged; the date is the current date at the moment the uploader was
initialised, not at the moment of selection. -/
theorem c9_amended_file_select_effects (slugify turndown : String → String)
    (s : UploaderState) (fileName fileType htmlContent : String)
    (h : fileType = "text/html" ∨ (jsToLower fileName).endsWith ".html" = true) :
    (handleFileSelect slugify turndown s fileName fileType htmlContent).markdown =
      turndown htmlContent ∧
    (handleFileSelect slugify turndown s fileName fileType htmlContent).metadata.title =
      extractTitle (turndown htmlContent) ∧
    (handleFileSelect slugify turndown s fileName fileType htmlContent).metadata.slug =
      extractSlug slugify (turndown htmlContent) ∧
    (handleFileSelect slugify turndown s fileName fileType htmlContent).metadata.excerpt =
      extractExcerpt (turndown htmlContent) ∧
    (handleFileSelect slugify turndown s fileName fileType htmlContent).metadata.date =
      s.metadata.date ∧
    (handleFileSelect slugify turndown s fileName fileType htmlContent).metadata.featuredImage =
      s.metadata.featuredImage ∧
    (handleFileSelect slugify turndown s fileName fileType htmlContent).file =
      some fileName ∧
    (handleFileSelect slugify turndown s fileName fileType htmlContent).error = none ∧
    (∀ d, (initState d).metadata.date = d) := by
  have hcond : ¬(fileType ≠ "text/html" ∧ ¬((jsToLower fileName).endsWith ".html") = true) := by
    rintro ⟨h1, h2⟩
    rcases h with h | h
    · exact h1 h
    · exact h2 h
  simp only [handleFileSelect]
  rw [if_neg hcond]
  simp [initState]

theorem c9_amended_file_select_effects_witness :
    (handleFileSelect (fun s => s) (fun _ => "# Hi\nBody") (initState "2024-01-01")
        "post.html" "text/html" "<h1>Hi</h1>").markdown =
      (fun _ => "# Hi\nBody") "<h1>Hi</h1>" ∧
    (handleFileSelect (fun s => s) (fun _ => "# Hi\nBody") (initState "2024-01-01")
        "post.html" "text/html" "<h1>Hi</h1>").metadata.title =
      extractTitle ((fun _ => "# Hi\nBody") "<h1>Hi</h1>") ∧
    (handleFileSelect (fun s => s) (fun _ => "# Hi\nBody") (initState "2024-01-01")
        "post.html" "text/html" "<h1>Hi</h1>").metadata.slug =
      extractSlug (fun s => s) ((fun _ => "# Hi\nBody") "<h1>Hi</h1>") ∧
    (handleFileSelect (fun s => s) (fun _ => "# Hi\nBody") (initState "2024-01-01")
        "post.html" "text/html" "<h1>Hi</h1>").metadata.excerpt =
      extractExcerpt ((fun _ => "# Hi\nBody") "<h1>Hi</h1>") ∧
    (handleFileSelect (fun s => s) (fun _ => "# Hi\nBody") (initState "2024-01-01")
        "post.html" "text/html" "<h1>Hi</h1>").metadata.date =
      (initState "2024-01-01").metadata.date ∧
    (handleFileSelect (fun s => s) (fun _ => "# Hi\nBody") (initState "2024-01-01")
        "post.html" "text/html" "<h1>Hi</h1>").metadata.featuredImage =
      (initState "2024-01-01").metadata.featuredImage ∧
    (handleFileSelect (fun s => s) (fun _ => "# Hi\nBody") (initState "2024-01-01")
        "post.html" "text/html" "<h1>Hi</h1>").file = some "post.html" ∧
    (handleFileSelect (fun s => s) (fun _ => "# Hi\nBody") (initState "2024-01-01")
        "post.html" "text/html" "<h1>Hi</h1>").error = none ∧
    (∀ d, (initState d).metadata.date = d) :=
  c9_amended_file_select_effects (fun s => s) (fun _ => "# Hi\nBody")
    (initState "2024-01-01") "post.html" "text/html" "<h1>Hi</h1>" (Or.inl rfl)

theorem findSome?_eq_find?_map {α β : Type} (f : α → Option β) (p : α → Bool) (g : α → β)
    (h : ∀ a, f a = if p a then some (g a) else none) :
    ∀ ls : List α, ls.findSome? f = (ls.find? p).map g
  | [] => rfl
  | a :: as => by
    have ha := h a
    by_cases hp : p a = true
    · rw [if_pos hp] at ha
      rw [List.findSome?_cons_of_isSome as (by rw [ha]; rfl),
        List.find?_cons_of_pos as hp, ha]
      rfl
    · rw [if_neg hp] at ha
      rw [List.findSome?_cons_of_isNone as (by rw [ha]; rfl),
        List.find?_cons_of_neg as hp, findSome?_eq_find?_map f p g h as]

theorem scanTitle_eq_findSome? : ∀ s : List Char,
    scanTitle true s = (lineStartTails s).findSome? titleMatchAt ∧
    scanTitle false s = (newlineTails s).findSome? titleMatchAt
  | [] => ⟨rfl, rfl⟩
  | c :: cs => by
    obtain ⟨iht, ihf⟩ := scanTitle_eq_findSome? cs
    have hnext : scanTitle (c == '\n') cs =
        (newlineTails (c :: cs)).findSome? titleMatchAt := by
      by_cases hnl : c = '\n'
      · subst hnl
        exact iht
      · have hbeq : (c == '\n') = false := by simp [hnl]
        rw [hbeq, show newlineTails (c :: cs) = newlineTails cs from by
          simp [newlineTails, hnl]]
        exact ihf
    constructor
    · simp only [scanTitle]
      rw [show lineStartTails (c :: cs) = (c :: cs) :: newlineTails (c :: cs) from rfl]
      by_cases hc : c = '#'
      · subst hc
        cases hatt : titleAttempt cs with
        | some cap =>
          have hm : titleMatchAt ('#' :: cs) = some cap := by simp [titleMatchAt, hatt]
          rw [List.findSome?_cons_of_isSome _ (by rw [hm]; rfl), hm]
          simp
        | none =>
          have hm : titleMatchAt ('#' :: cs) = none := by simp [titleMatchAt, hatt]
          rw [List.findSome?_cons_of_isNone _ (by rw [hm]; rfl)]
          simpa using hnext
      · have hm : titleMatchAt (c :: cs) = none := by simp [titleMatchAt, hc]
        rw [List.findSome?_cons_of_isNone _ (by rw [hm]; rfl)]
        simpa [hc] using hnext
    · simp only [scanTitle]
      simpa using hnext

theorem excerptLineMatch_eq (l : String) :
    excerptLineMatch l = if excerptLinePred l then some (amendedExcerptText l) else none := by
  cases hd : l.data with
  | nil => simp [excerptLineMatch, excerptLinePred, hd]
  | cons c cs =>
    by_cases hc : c = '#'
    · subst hc
      simp [excerptLineMatch, excerptLinePred, amendedExcerptText, hd]
    · simp [excerptLineMatch, excerptLinePred, amendedExcerptText, hd, hc]

/-- C6 counterexample: the derived excerpt is not the whole first
non-heading line truncated to 200 characters — the excerpt pattern stops
at the first marker character inside the line, so for the converted text
"Hello # World" the code derives "Hello" while the claim requires
"Hello # World". -/
theorem c6_counterexample_excerpt_stops_at_marker :
    extractExcerpt "Hello # World" = "Hello" ∧
    specExcerpt "Hello # World" = "Hello # World" ∧
    extractExcerpt "Hello # World" ≠ specExcerpt "Hello # World" := by
  decide

/-- C6 amended: metadata extraction over the converted text yields:
title = the trimmed capture of the first line-start marker whose attempt
succeeds, where the attempt's whitespace run may cross newlines — so the
captured text (the remainder of the line where the run stops, or the
backtracked single whitespace character when only whitespace follows to
the end) can lie on a later line, any heading depth matches, and a second
marker becomes part of the text; slug = the slug transform of that
untrimmed capture lowercased (empty when no attempt succeeds); excerpt =
the run of non-marker characters at the start of the first line that is
non-empty and does not begin with the marker, trimmed and truncated to
200 characters (empty when no such line). -/
theorem c6_amended_extraction (slugify : String → String) (md : String) :
    extractTitle md = amendedTitle md ∧
    extractSlug slugify md = amendedSlug slugify md ∧
    extractExcerpt md = amendedExcerpt md := by
  have ht : firstTitleGroup md = amendedTitleCapture md := by
    unfold firstTitleGroup amendedTitleCapture
    rw [(scanTitle_eq_findSome? md.data).1]
  have he := findSome?_eq_find?_map excerptLineMatch excerptLinePred amendedExcerptText
    excerptLineMatch_eq (jsLines md)
  refine ⟨?_, ?_, ?_⟩
  · unfold extractTitle amendedTitle
    rw [ht]
  · unfold extractSlug amendedSlug
    rw [ht]
  · unfold extractExcerpt firstExcerptMatch amendedExcerpt
    rw [he]
    cases (jsLines md).find? excerptLinePred <;> rfl

end BlogPipeline
